import Mathlib

/-!
Verification of the zincsforboats backend (src/mastercode.py): a shallow
embedding of the query parser, the Shopify catalog client, the response
composer, the OpenAI advice call and the `/get_response` HTTP facade, with
theorems checking the specification's claims against it.

External effects (the outbound HTTP calls) are modelled by explicit outcome
values passed to the embedded functions; Python exceptions are modelled by
`Except PyErr`; Python character classes are modelled over ASCII.
-/

namespace ZincsForBoats

/-! ## Character classes (ASCII model of Python's `\w`, `\s`, `\d`) -/

/-- ASCII model of Python regex `\w`: letters, digits and underscore. -/
def isWordChar (c : Char) : Bool :=
  (48 ≤ c.toNat && c.toNat ≤ 57) || (65 ≤ c.toNat && c.toNat ≤ 90) ||
  (97 ≤ c.toNat && c.toNat ≤ 122) || c.toNat = 95

/-- ASCII model of Python regex `\s` / `str` whitespace. -/
def isSpaceChar (c : Char) : Bool :=
  c.toNat = 32 || c.toNat = 9 || c.toNat = 10 || c.toNat = 13 ||
  c.toNat = 11 || c.toNat = 12

/-- ASCII model of Python regex `\d`. -/
def isDigitChar (c : Char) : Bool :=
  48 ≤ c.toNat && c.toNat ≤ 57

/-! ## The year regex `\b(19|20)\d{2}\b` -/

/-- Attempt of the year pattern at one position whose word boundary on the
left is already established: two digits forming 19 or 20, two more digits,
then a right word boundary. -/
def yearMatchAt : List Char → Option (List Char)
  | d1 :: d2 :: d3 :: d4 :: rest =>
    if ((d1 = '1' && d2 = '9') || (d1 = '2' && d2 = '0')) &&
       isDigitChar d3 && isDigitChar d4 &&
       (match rest with | [] => true | c :: _ => !isWordChar c) then
      some [d1, d2, d3, d4]
    else
      none
  | _ => none

/-- The `re.search` scan for the year pattern: leftmost position first.
`prevWord` records whether the character before the current position is a
word character (the pattern starts with a word character, so the leading
`\b` holds exactly when it is not). -/
def yearSearch : Bool → List Char → Option (List Char)
  | _, [] => none
  | prevWord, c :: cs =>
    match (if prevWord then none else yearMatchAt (c :: cs)) with
    | some m => some m
    | none => yearSearch (isWordChar c) cs

/-! ## The model regex `\b(?:Hewescraft\s+\d+\s+\w+)\b`, IGNORECASE -/

/-- Case-insensitive literal prefix: the pattern is given in lowercase; on
success the leftover input is returned. -/
def stripPrefixCI : List Char → List Char → Option (List Char)
  | [], rest => some rest
  | _ :: _, [] => none
  | p :: ps, c :: cs => if c.toLower = p then stripPrefixCI ps cs else none

/-- Attempt of the boat-model pattern at one position with the left word
boundary established: the literal vendor name, then maximal nonempty runs
of whitespace, digits, whitespace and word characters (the greedy `+`
quantifiers never backtrack here because adjacent classes are disjoint, and
the trailing `\b` holds after a maximal word run). Returns the matched
slice of the original input. -/
def modelMatchAt (rest : List Char) : Option (List Char) :=
  match stripPrefixCI "hewescraft".data rest with
  | none => none
  | some r1 =>
    let s1 := r1.takeWhile isSpaceChar
    let r2 := r1.dropWhile isSpaceChar
    let d1 := r2.takeWhile isDigitChar
    let r3 := r2.dropWhile isDigitChar
    let s2 := r3.takeWhile isSpaceChar
    let r4 := r3.dropWhile isSpaceChar
    let w1 := r4.takeWhile isWordChar
    let r5 := r4.dropWhile isWordChar
    if !s1.isEmpty && !d1.isEmpty && !s2.isEmpty && !w1.isEmpty then
      some (rest.take (rest.length - r5.length))
    else
      none

/-- The `re.search` scan for the boat-model pattern. -/
def modelSearch : Bool → List Char → Option (List Char)
  | _, [] => none
  | prevWord, c :: cs =>
    match (if prevWord then none else modelMatchAt (c :: cs)) with
    | some m => some m
    | none => modelSearch (isWordChar c) cs

/-! ## The product regex `\b(zinc plates?|boat stands?|anodes?|paints?)\b`,
IGNORECASE -/

/-- One alternative `<literal>s?` followed by `\b`: after the literal, the
greedy optional `s` is taken when the next character is `s`/`S` (and then
the boundary must hold after it; backtracking to the short branch cannot
succeed because the `s` itself is a word character); otherwise the boundary
must hold right after the literal. Returns the matched slice. -/
def prodAlt (pat : List Char) (rest : List Char) : Option (List Char) :=
  match stripPrefixCI pat rest with
  | none => none
  | some [] => some (rest.take pat.length)
  | some (c :: cs) =>
    if c.toLower = 's' then
      match cs with
      | [] => some (rest.take (pat.length + 1))
      | d :: _ => if isWordChar d then none else some (rest.take (pat.length + 1))
    else if isWordChar c then none else some (rest.take pat.length)

/-- Attempt of the product-category pattern at one position with the left
word boundary established: the four alternatives in the pattern's order. -/
def productMatchAt (rest : List Char) : Option (List Char) :=
  match prodAlt "zinc plate".data rest with
  | some m => some m
  | none =>
    match prodAlt "boat stand".data rest with
    | some m => some m
    | none =>
      match prodAlt "anode".data rest with
      | some m => some m
      | none => prodAlt "paint".data rest

/-- The `re.search` scan for the product-category pattern. -/
def productSearch : Bool → List Char → Option (List Char)
  | _, [] => none
  | prevWord, c :: cs =>
    match (if prevWord then none else productMatchAt (c :: cs)) with
    | some m => some m
    | none => productSearch (isWordChar c) cs

/-! ## `parse_query` -/

/-- Result record of `parse_query`. -/
structure ParsedQuery where
  year : Option String
  model : Option String
  product : Option String
deriving Repr, DecidableEq

/-- Function `parse_query` from src/mastercode.py: three independent `re.search`
calls over the same query, `group(0)` of each or `None`. -/
def parse_query (q : String) : ParsedQuery :=
  { year := (yearSearch false q.data).map List.asString
    model := (modelSearch false q.data).map List.asString
    product := (productSearch false q.data).map List.asString }

/-! ## Python runtime model: values, exceptions, builtins -/

/-- JSON values as Python objects (numbers restricted to integers; no claim
involves fractional payloads). -/
inductive JVal where
  | null
  | bool (b : Bool)
  | num (n : Int)
  | str (s : String)
  | arr (xs : List JVal)
  | obj (fs : List (String × JVal))

/-- The Python exceptions the embedded code can raise. -/
inductive PyErr where
  | keyError
  | typeError
  | valueError
  | zeroDivisionError
  | overflowError
  | unboundLocalError
deriving Repr, DecidableEq

/-- Python subscript `v[k]` with a string key: `KeyError` on a dict without
the key, `TypeError` on every non-dict. -/
def pyLookup : JVal → String → Except PyErr JVal
  | JVal.obj fs, k =>
    match fs.lookup k with
    | some v => .ok v
    | none => .error .keyError
  | _, _ => .error .typeError

/-- Python iteration over a JSON-decoded value: lists yield elements, dicts
yield their keys, strings yield one-character strings, everything else is
not iterable (`TypeError`). -/
def pyIter : JVal → Except PyErr (List JVal)
  | JVal.arr xs => .ok xs
  | JVal.obj fs => .ok (fs.map (fun kv => JVal.str kv.1))
  | JVal.str s => .ok (s.data.map (fun c => JVal.str (List.asString [c])))
  | _ => .error .typeError

mutual

/-- Python `repr()` of a JSON-decoded value (string escaping elided: no
claim's input contains quotes or escapes in payload strings). -/
def pyRepr : JVal → String
  | JVal.null => "None"
  | JVal.bool true => "True"
  | JVal.bool false => "False"
  | JVal.num n => toString n
  | JVal.str s => "'" ++ s ++ "'"
  | JVal.arr xs => "[" ++ String.intercalate ", " (pyReprList xs) ++ "]"
  | JVal.obj fs => "\x7b" ++ String.intercalate ", " (pyReprFields fs) ++ "\x7d"

/-- Python `repr()` of each element of a decoded list. -/
def pyReprList : List JVal → List String
  | [] => []
  | x :: xs => pyRepr x :: pyReprList xs

/-- Python `repr()` of each `key: value` entry of a decoded dict. -/
def pyReprFields : List (String × JVal) → List String
  | [] => []
  | (k, v) :: fs => ("'" ++ k ++ "': " ++ pyRepr v) :: pyReprFields fs

end

/-- Python `str()` as used by f-string interpolation of a decoded value. -/
def pyStr : JVal → String
  | JVal.str s => s
  | v => pyRepr v

/-- Python `str.strip()` (ASCII whitespace model). -/
def pyStrip (s : String) : String :=
  List.asString (((s.data.dropWhile isSpaceChar).reverse.dropWhile isSpaceChar).reverse)

/-- Digits of an integer literal to its value. -/
def digitsToNat (ds : List Char) : Nat :=
  ds.foldl (fun a c => a * 10 + (c.toNat - 48)) 0

/-- Python `int(str)`: optional surrounding whitespace, optional sign, at
least one ASCII digit; `ValueError` otherwise. -/
def pyInt (s : String) : Except PyErr Int :=
  match ((s.data.dropWhile isSpaceChar).reverse.dropWhile isSpaceChar).reverse with
  | '-' :: ds =>
    if !ds.isEmpty && ds.all isDigitChar then .ok (-(digitsToNat ds : Int))
    else .error .valueError
  | '+' :: ds =>
    if !ds.isEmpty && ds.all isDigitChar then .ok (digitsToNat ds : Int)
    else .error .valueError
  | ds =>
    if !ds.isEmpty && ds.all isDigitChar then .ok (digitsToNat ds : Int)
    else .error .valueError

/-- Round a rational to the nearest integer, ties to even (the IEEE-754
rounding of a scaled significand). -/
def roundMantissa (r : ℚ) : ℤ :=
  if Int.fract r < 1/2 then ⌊r⌋
  else if 1/2 < Int.fract r then ⌈r⌉
  else if ⌊r⌋ % 2 = 0 then ⌊r⌋ else ⌈r⌉

/-- The IEEE-754 binary64 double nearest to a positive rational, as its
exact rational value: the significand is rounded on the binary grid of
step `2^e`, where `e` gives 53 significant bits for normal magnitudes
(`e = ⌊log2 q⌋ - 52`) and is pinned at the subnormal step `2^-1074` below
them (gradual underflow). Checked against CPython's correctly rounded
`int.__truediv__` on random and boundary inputs. -/
def roundPosQ (q : ℚ) : ℚ :=
  (roundMantissa (q * (2 : ℚ) ^ (-(max (Int.log 2 q - 52) (-1074)))) : ℚ) *
    (2 : ℚ) ^ (max (Int.log 2 q - 52) (-1074))

/-- The binary64 double nearest to any rational (rounding is symmetric in
the sign). -/
def roundDouble (q : ℚ) : ℚ :=
  if q < 0 then -roundPosQ (-q) else roundPosQ q

/-- Python `a / b` on integers: float true division, producing the
correctly rounded binary64 double of the exact quotient (round to nearest,
ties to even, gradual underflow), as its exact rational value.
`ZeroDivisionError` for `b = 0`; `OverflowError` when the rounded
magnitude reaches `2^1024` (CPython raises "integer division result too
large for a float"). -/
def pyTrueDiv (a b : Int) : Except PyErr ℚ :=
  if b = 0 then .error .zeroDivisionError
  else
    let v := roundDouble ((a : ℚ) / (b : ℚ))
    if (2 : ℚ) ^ (1024 : ℤ) ≤ |v| then .error .overflowError else .ok v

/-- Python `math.ceil(a / b)` on integer operands as line 86 computes it:
float true division first, then the exact ceiling of the resulting double.
The float rounding makes this differ from the exact rational ceiling for
extreme operands (for example `math.ceil(3 / 10**326) == 0`). -/
def pyCeilDiv (a b : Int) : Except PyErr Int :=
  match pyTrueDiv a b with
  | .error e => .error e
  | .ok v => .ok ⌈v⌉

/-- A Python slice index resolved against a list of length `n`: negative
indices count from the end, then the result is clamped into `[0, n]`. -/
def pySliceIdx (n : Nat) (i : Int) : Nat :=
  min (if i < 0 then i + n else i).toNat n

/-- Python `xs[a:b]` (step 1): out-of-range bounds yield a short or empty
slice, never an error. -/
def pySlice {α : Type} (xs : List α) (a b : Int) : List α :=
  (xs.take (pySliceIdx xs.length b)).drop (pySliceIdx xs.length a)

/-! ## `fetch_product_details`: the Shopify catalog client -/

/-- Outcome of the outbound `requests.post` to the Shopify GraphQL
endpoint: either the request itself fails (`requests.RequestException`:
connection error, timeout, ...) or a response arrives with a status code
and a body, `none` when the body is not decodable JSON. -/
inductive CatalogOutcome where
  | transportError
  | httpResponse (status : Nat) (body : Option JVal)

/-- Configured storefront base URL (the source's default). -/
def WEBSITE_URL : String := "https://zincsforboats.com"

/-- Function `fetch_product_details` from src/mastercode.py. Inside its `try`:
`raise_for_status` raises `requests.HTTPError` for 4xx/5xx statuses,
`response.json()` raises `requests.exceptions.JSONDecodeError` on an
undecodable body (requests ≥ 2.27; both are `RequestException`s and are
caught, giving `[]`), and `['data']['products']['edges']` plus the
`[product['node'] ...]` comprehension raise `KeyError`/`TypeError` on a
body of the wrong shape — those are NOT `RequestException`s, so the
`except` clause does not catch them and they propagate to the caller. -/
def fetch_product_details (out : CatalogOutcome) : Except PyErr (List JVal) :=
  match out with
  | .transportError => .ok []
  | .httpResponse status body =>
    if 400 ≤ status && status < 600 then .ok []
    else
      match body with
      | none => .ok []
      | some j => do
        let d ← pyLookup j "data"
        let p ← pyLookup d "products"
        let e ← pyLookup p "edges"
        let items ← pyIter e
        items.mapM (fun it => pyLookup it "node")

/-! ## `generate_response`: the response composer -/

/-- One markdown link of the rendered product list:
`[{title}]({WEBSITE_URL}/products/{handle})`, with the two dict lookups the
loop body performs (raising on a malformed product object). -/
def renderLink (p : JVal) : Except PyErr String := do
  let t ← pyLookup p "title"
  let h ← pyLookup p "handle"
  .ok ("[" ++ pyStr t ++ "](" ++ WEBSITE_URL ++ "/products/" ++ pyStr h ++ ")")

/-- The `response_parts` list of `generate_response`: the Python slice
`products[start:end]` with `start = (page-1)*per_page`,
`end = start + per_page`, one link per sliced product. -/
def responseParts (products : List JVal) (page perPage : Int) : Except PyErr (List String) :=
  let start := (page - 1) * perPage
  (pySlice products start (start + perPage)).mapM renderLink

/-- The fixed fallback sentence of the empty-result branch. -/
def fallbackMessage : String :=
  "We currently do not have the exact product you're looking for in our system, " ++
  "but we may have them in stock. Please visit our [Shopify store](" ++ WEBSITE_URL ++
  ") and use the on-site search option. Thank you for visiting today, and we " ++
  "appreciate the opportunity to earn your business."

/-- Function `generate_response` from src/mastercode.py. It parses the query, fetches
the products (the network outcome is the explicit `out` argument) and
composes the paginated message. On the empty-products branch the function
assigns `response_message` the fallback text but `return response_message,
total_pages` then reads `total_pages`, a local only ever assigned inside
the non-empty branch: the return raises `UnboundLocalError`. -/
def generate_response (query : String) (out : CatalogOutcome) (page : Int := 1)
    (perPage : Int := 10) : Except PyErr (String × Int) := do
  let parsed := parse_query query
  let _product_query := parsed.product
  let products ← fetch_product_details out
  if products.isEmpty then
    .error .unboundLocalError
  else do
    let totalPages ← pyCeilDiv (products.length : Int) perPage
    let parts ← responseParts products page perPage
    .ok ("We found the following matches for your query (Page " ++ toString page ++
         " of " ++ toString totalPages ++ "):\n\n" ++
         String.intercalate "\n" parts ++
         "\n\nUse 'next' or 'prev' to navigate pages.", totalPages)

/-! ## `get_openai_response`: the advice generator -/

/-- Outcome of the `openai.Completion.create` call: the API raises, or it
returns a response whose choices carry text fields. -/
inductive AIOutcome where
  | apiError
  | completion (choices : List String)

/-- The fixed sentence of the advice generator's `except` branch. -/
def aiErrorSentence : String :=
  "An error occurred while trying to generate a response."

/-- Function `get_openai_response` from src/mastercode.py: `choices[0].text.strip()`
on a response (an empty `choices` list raises `IndexError`, which the broad
`except Exception` also catches), the fixed sentence on any failure. -/
def get_openai_response (out : AIOutcome) : String :=
  match out with
  | .apiError => aiErrorSentence
  | .completion [] => aiErrorSentence
  | .completion (t :: _) => pyStrip t

/-! ## The `/get_response` HTTP facade -/

/-- The query parameters of a `/get_response` request as
`request.args.get` sees them: `none` when absent. -/
structure Request where
  query : Option String
  page : Option String
  per_page : Option String

/-- A JSON response body the endpoint produces. -/
inductive Body where
  | errorBody (error : String)
  | messageBody (message : String) (total_pages : Int) (current_page : Int)
deriving Repr, DecidableEq

/-- An HTTP response: status code and JSON body. -/
structure HttpResult where
  status : Nat
  body : Body
deriving Repr, DecidableEq

/-- Python `int(request.args.get(name, default))`: the integer default when the
parameter is absent, `int()` of the raw string otherwise. -/
def parseArg (default : Int) : Option String → Except PyErr Int
  | none => .ok default
  | some s => pyInt s

/-- The `/get_response` handler from src/mastercode.py: parse `page` and
`per_page` first, then the missing-query check, then the pipeline; any
exception escaping the body is converted by the `except` clause into the
generic 500. The two outbound calls' outcomes are the explicit `out` and
`ai` arguments. -/
def get_response (req : Request) (out : CatalogOutcome) (ai : AIOutcome) : HttpResult :=
  let run : Except PyErr HttpResult := do
    let page ← parseArg 1 req.page
    let perPage ← parseArg 10 req.per_page
    match req.query with
    | none => .ok ⟨400, .errorBody "Query is required"⟩
    | some q =>
      if q = "" then .ok ⟨400, .errorBody "Query is required"⟩
      else do
        let (response_message, total_pages) ← generate_response q out page perPage
        let openai_response := get_openai_response ai
        .ok ⟨200, .messageBody
              (response_message ++ "\n\nAdditionally, here's some advice: " ++ openai_response)
              total_pages page⟩
  match run with
  | .ok r => r
  | .error _ => ⟨500, .errorBody "An unexpected error occurred."⟩

/-! ## Concrete fixtures: a three-product catalog response -/

/-- A well-formed product node as the GraphQL response carries it. -/
def sampleProduct (t h : String) : JVal :=
  .obj [("id", .str ("gid-" ++ h)), ("title", .str t), ("handle", .str h)]

/-- Three normalized products. -/
def ps3 : List JVal :=
  [sampleProduct "Zinc A" "a", sampleProduct "Zinc B" "b", sampleProduct "Zinc C" "c"]

/-- A 200 response whose body has the full `data.products.edges` shape
carrying the three products of `ps3`. -/
def out3 : CatalogOutcome :=
  .httpResponse 200 (some (.obj [("data", .obj [("products", .obj [("edges",
    .arr (ps3.map (fun p => .obj [("node", p)])))])])]))

/-- The generic 500 response of the facade's catch-all. -/
def internalError : HttpResult := ⟨500, .errorBody "An unexpected error occurred."⟩

/-! ## Helper lemmas -/

/-- Monadic bind on a successful `Except` computation. -/
theorem bindOk {ε α β : Type} (a : α) (f : α → Except ε β) :
    (Except.ok a >>= f : Except ε β) = f a := rfl

/-- Monadic bind on a failed `Except` computation. -/
theorem bindErr {ε α β : Type} (e : ε) (f : α → Except ε β) :
    (Except.error e >>= f : Except ε β) = Except.error e := rfl

/-- A failed `pyLookup` is a `KeyError` or a `TypeError`. -/
theorem pyLookup_error {v : JVal} {k : String} {e : PyErr}
    (h : pyLookup v k = .error e) : e = .keyError ∨ e = .typeError := by
  cases v <;> simp [pyLookup] at h <;> try (exact Or.inr h.symm)
  · rename_i fs
    cases hl : fs.lookup k <;> rw [hl] at h <;> simp at h
    exact Or.inl h.symm

/-- A failed `renderLink` is a `KeyError` or a `TypeError`. -/
theorem renderLink_error {p : JVal} {e : PyErr}
    (h : renderLink p = .error e) : e = .keyError ∨ e = .typeError := by
  unfold renderLink at h
  cases ht : pyLookup p "title" with
  | error e1 =>
    rw [ht, bindErr] at h
    cases h
    exact pyLookup_error ht
  | ok t =>
    rw [ht, bindOk] at h
    cases hh : pyLookup p "handle" with
    | error e2 =>
      rw [hh, bindErr] at h
      cases h
      exact pyLookup_error hh
    | ok hv => rw [hh, bindOk] at h; cases h

/-- A failed `mapM` of a function whose failures all satisfy `P` fails
with an error satisfying `P`. -/
theorem mapM_error {α β : Type} {f : α → Except PyErr β} {P : PyErr → Prop}
    (hf : ∀ a e, f a = .error e → P e) :
    ∀ {xs : List α} {e : PyErr}, xs.mapM f = .error e → P e := by
  intro xs
  induction xs with
  | nil => intro e h; rw [List.mapM_nil] at h; cases h
  | cons a l ih =>
    intro e h
    rw [List.mapM_cons] at h
    cases ha : f a with
    | error e1 => rw [ha, bindErr] at h; cases h; exact hf a _ ha
    | ok b =>
      rw [ha, bindOk] at h
      cases hl : l.mapM f with
      | error e2 => rw [hl, bindErr] at h; cases h; exact ih hl
      | ok bs => rw [hl, bindOk] at h; cases h

/-- A failed `responseParts` is a `KeyError` or a `TypeError` (in
particular, never a `ZeroDivisionError`). -/
theorem responseParts_error {ps : List JVal} {page pp : Int} {e : PyErr}
    (h : responseParts ps page pp = .error e) : e = .keyError ∨ e = .typeError :=
  mapM_error (fun _ _ hq => renderLink_error hq) h

/-- Basic facts about ties-to-even rounding: the result is the floor or
the ceiling of the significand. -/
theorem roundMantissa_mem (r : ℚ) : roundMantissa r = ⌊r⌋ ∨ roundMantissa r = ⌈r⌉ := by
  unfold roundMantissa
  split_ifs <;> simp

/-- Ties-to-even rounding never loses more than half a grid step downward. -/
theorem roundMantissa_half_le (r : ℚ) : r - 1/2 ≤ (roundMantissa r : ℚ) := by
  unfold roundMantissa
  have hfl : (⌊r⌋ : ℚ) = r - Int.fract r := by
    rw [Int.self_sub_fract]
  split_ifs with h1 h2 h3
  · rw [hfl]; linarith
  · linarith [Int.le_ceil r]
  · rw [hfl]; linarith [not_lt.mp h2]
  · linarith [Int.le_ceil r]

/-- Rounding an integer returns it unchanged. -/
theorem roundMantissa_intCast (z : ℤ) : roundMantissa (z : ℚ) = z := by
  rcases roundMantissa_mem ((z : ℤ) : ℚ) with h | h <;> rw [h] <;> simp

/-- Rounding a quotient of a small numerator by a not-too-large positive
denominator to a double preserves the ceiling: the quotient is at least
`1/b` above the integer below it, which exceeds half a grid step both on
the normal grids (because `a < 2^52`) and on the subnormal grid (because
`b < 2^1075`), and the integer ceiling itself lies on the grid. -/
theorem roundPosQ_ceil (a : ℕ) (b : ℤ) (ha1 : 1 ≤ a) (ha : (a : ℤ) < 2 ^ 52)
    (hb : 1 ≤ b) (hbu : b < 2 ^ 1075) :
    ⌈roundPosQ ((a : ℚ) / (b : ℚ))⌉ = ⌈(a : ℚ) / (b : ℚ)⌉ ∧
    0 ≤ roundPosQ ((a : ℚ) / (b : ℚ)) ∧
    roundPosQ ((a : ℚ) / (b : ℚ)) ≤ (2 : ℚ) ^ (52 : ℕ) := by
  have hb0Z : (0 : ℤ) < b := by omega
  have hb0 : (0 : ℚ) < (b : ℚ) := by exact_mod_cast hb0Z
  have ha0 : (0 : ℚ) < (a : ℚ) := by exact_mod_cast (by omega : 0 < a)
  set q : ℚ := (a : ℚ) / (b : ℚ) with hq
  have hq0 : 0 < q := div_pos ha0 hb0
  have hqa : q ≤ (a : ℚ) := div_le_self ha0.le (by exact_mod_cast hb)
  obtain ⟨t, ht⟩ : ∃ t, Int.log 2 q = t := ⟨_, rfl⟩
  have hF1 : (2 : ℚ) ^ t ≤ q := by
    rw [← ht]
    have h := @Int.zpow_log_le_self ℚ _ _ 2 q (by norm_num) hq0
    simpa using h
  have haQ : (a : ℚ) < (2 : ℚ) ^ (52 : ℤ) := by
    have h1 : ((a : ℤ) : ℚ) < ((2 ^ 52 : ℤ) : ℚ) := by exact_mod_cast ha
    have h2 : ((2 ^ 52 : ℤ) : ℚ) = (2 : ℚ) ^ (52 : ℤ) := by norm_num
    rw [h2] at h1
    exact_mod_cast h1
  have hlt52 : t ≤ 51 := by
    by_contra hc
    push_neg at hc
    have h1 : (2 : ℚ) ^ (52 : ℤ) ≤ (2 : ℚ) ^ t :=
      zpow_le_zpow_right₀ (by norm_num) (by omega)
    linarith [le_trans h1 hF1]
  obtain ⟨e, he⟩ : ∃ e, max (t - 52) (-1074) = e := ⟨_, rfl⟩
  have he1 : e ≤ -1 := by omega
  have he2 : -1074 ≤ e := by omega
  obtain ⟨n, hn⟩ : ∃ n : ℕ, (n : ℤ) = -e := ⟨(-e).toNat, Int.toNat_of_nonneg (by omega)⟩
  have h2n : (2 : ℚ) ^ (-e) = ((2 ^ n : ℕ) : ℚ) := by
    rw [← hn, zpow_natCast]
    push_cast
    ring
  have h2epos : (0 : ℚ) < (2 : ℚ) ^ e := zpow_pos (by norm_num) e
  have h2nepos : (0 : ℚ) < (2 : ℚ) ^ (-e) := zpow_pos (by norm_num) _
  have hee : (2 : ℚ) ^ (-e) * (2 : ℚ) ^ e = 1 := by
    rw [← zpow_add₀ (by norm_num : (2 : ℚ) ≠ 0)]
    simp
  set r : ℚ := q * (2 : ℚ) ^ (-e) with hrdef
  have hr0 : 0 ≤ r := le_of_lt (mul_pos hq0 h2nepos)
  set m : ℤ := roundMantissa r with hm
  have hval : roundPosQ q = (m : ℚ) * (2 : ℚ) ^ e := by
    rw [roundPosQ, ht, he]
  have hmem : m = ⌊r⌋ ∨ m = ⌈r⌉ := roundMantissa_mem r
  have hm0 : 0 ≤ m := by
    rcases hmem with h | h
    · rw [h]; exact Int.floor_nonneg.mpr hr0
    · rw [h]; exact Int.ceil_nonneg hr0
  have hhalf : r - 1/2 ≤ (m : ℚ) := roundMantissa_half_le r
  have hmceil : m ≤ ⌈r⌉ := by
    rcases hmem with h | h
    · rw [h]; exact Int.floor_le_ceil r
    · rw [h]
  set k : ℤ := ⌈q⌉ with hk
  have hk1 : 1 ≤ k := by
    have := Int.ceil_pos.mpr hq0
    omega
  have hka : k ≤ (a : ℤ) := Int.ceil_le.mpr (by exact_mod_cast hqa)
  have hrk : r ≤ ((k * 2 ^ n : ℤ) : ℚ) := by
    have h1 : q ≤ (k : ℚ) := Int.le_ceil q
    have h2 : r ≤ (k : ℚ) * (2 : ℚ) ^ (-e) :=
      mul_le_mul_of_nonneg_right h1 h2nepos.le
    calc r ≤ (k : ℚ) * (2 : ℚ) ^ (-e) := h2
      _ = ((k * 2 ^ n : ℤ) : ℚ) := by rw [h2n]; push_cast; ring
  have hmk : m ≤ k * 2 ^ n := le_trans hmceil (Int.ceil_le.mpr hrk)
  have hvk : (m : ℚ) * (2 : ℚ) ^ e ≤ (k : ℚ) := by
    have h1 : (m : ℚ) ≤ ((k * 2 ^ n : ℤ) : ℚ) := by exact_mod_cast hmk
    have h2 : (m : ℚ) * (2 : ℚ) ^ e ≤ ((k * 2 ^ n : ℤ) : ℚ) * (2 : ℚ) ^ e :=
      mul_le_mul_of_nonneg_right h1 h2epos.le
    have h4 : ((2 ^ n : ℕ) : ℚ) * (2 : ℚ) ^ e = 1 := by rw [← h2n]; exact hee
    have h3 : ((k * 2 ^ n : ℤ) : ℚ) * (2 : ℚ) ^ e = (k : ℚ) := by
      push_cast
      push_cast at h4
      calc (k : ℚ) * 2 ^ n * (2 : ℚ) ^ e = (k : ℚ) * (2 ^ n * (2 : ℚ) ^ e) := by ring
        _ = (k : ℚ) := by rw [h4]; ring
    rw [h3] at h2
    exact h2
  have hv0 : 0 ≤ (m : ℚ) * (2 : ℚ) ^ e :=
    mul_nonneg (by exact_mod_cast hm0) h2epos.le
  have hk52 : (k : ℚ) ≤ (2 : ℚ) ^ (52 : ℕ) := by
    have h1 : (k : ℚ) ≤ (a : ℚ) := by exact_mod_cast hka
    have h2 : (2 : ℚ) ^ (52 : ℤ) = (2 : ℚ) ^ (52 : ℕ) := by norm_num
    linarith [haQ, h2 ▸ haQ]
  refine ⟨?_, by rw [hval]; exact hv0, by rw [hval]; linarith⟩
  rw [hval]
  by_cases hint : ∃ z : ℤ, q = (z : ℚ)
  · obtain ⟨z, hz⟩ := hint
    have hrz : r = ((z * 2 ^ n : ℤ) : ℚ) := by
      rw [hrdef, hz, h2n]
      push_cast
      ring
    have hmz : m = z * 2 ^ n := by rw [hm, hrz, roundMantissa_intCast]
    have h4 : ((2 ^ n : ℕ) : ℚ) * (2 : ℚ) ^ e = 1 := by rw [← h2n]; exact hee
    have hvq : (m : ℚ) * (2 : ℚ) ^ e = q := by
      rw [hmz, hz]
      push_cast
      push_cast at h4
      calc (z : ℚ) * 2 ^ n * (2 : ℚ) ^ e = (z : ℚ) * (2 ^ n * (2 : ℚ) ^ e) := by ring
        _ = (z : ℚ) := by rw [h4]; ring
    rw [hvq]
  · have hfl : (⌊q⌋ : ℚ) < q := by
      rcases lt_or_eq_of_le (Int.floor_le q) with h | h
      · exact h
      · exact absurd ⟨⌊q⌋, h.symm⟩ hint
    have hkfl : k = ⌊q⌋ + 1 := by
      have h1 : ⌊q⌋ < k := Int.lt_ceil.mpr hfl
      have h2 : k ≤ ⌊q⌋ + 1 := Int.ceil_le_floor_add_one q
      omega
    have hqb : q * (b : ℚ) = (a : ℚ) := by
      rw [hq]
      exact div_mul_cancel₀ _ (ne_of_gt hb0)
    have hstep : 1 / (b : ℚ) ≤ q - (⌊q⌋ : ℚ) := by
      have h2 : (⌊q⌋ : ℚ) * (b : ℚ) < (a : ℚ) := by
        have := mul_lt_mul_of_pos_right hfl hb0
        rw [hqb] at this
        exact this
      have h3 : ⌊q⌋ * b < (a : ℤ) := by exact_mod_cast h2
      have h5 : ((⌊q⌋ * b + 1 : ℤ) : ℚ) ≤ (a : ℚ) := by exact_mod_cast (by omega : ⌊q⌋ * b + 1 ≤ (a : ℤ))
      have h8 : (1 : ℚ) ≤ (q - (⌊q⌋ : ℚ)) * (b : ℚ) := by
        have h9 : (q - (⌊q⌋ : ℚ)) * (b : ℚ) = (a : ℚ) - (⌊q⌋ : ℚ) * (b : ℚ) := by
          rw [sub_mul, hqb]
        push_cast at h5
        linarith
      have h10 : (1 : ℚ) / (b : ℚ) ≤ ((q - (⌊q⌋ : ℚ)) * (b : ℚ)) / (b : ℚ) := by gcongr
      rwa [mul_div_cancel_right₀ _ (ne_of_gt hb0)] at h10
    have hsmall : (2 : ℚ) ^ (e - 1) < 1 / (b : ℚ) := by
      by_cases hcase : t - 52 ≤ -1074
      · have hee1074 : e = -1074 := by omega
        have h1 : (b : ℚ) < (2 : ℚ) ^ (1075 : ℕ) := by
          have h0 : ((b : ℤ) : ℚ) < ((2 ^ 1075 : ℤ) : ℚ) := by exact_mod_cast hbu
          push_cast at h0
          exact h0
        have h2 : (2 : ℚ) ^ (e - 1) = ((2 : ℚ) ^ (1075 : ℕ))⁻¹ := by
          rw [hee1074, show ((-1074 : ℤ) - 1) = -(1075 : ℤ) by norm_num, zpow_neg,
            show ((1075 : ℤ)) = ((1075 : ℕ) : ℤ) from rfl, zpow_natCast]
        rw [h2, one_div]
        gcongr
      · have hets : e = t - 52 := by omega
        have h2t : (0 : ℚ) < (2 : ℚ) ^ t := zpow_pos (by norm_num) t
        have h1 : (b : ℚ) * (2 : ℚ) ^ t ≤ (a : ℚ) := by
          have h0 : (2 : ℚ) ^ t * (b : ℚ) ≤ (a : ℚ) := by
            rw [← hqb]
            exact mul_le_mul_of_nonneg_right hF1 hb0.le
          linarith
        have h2 : (b : ℚ) < (2 : ℚ) ^ ((52 : ℤ) - t) := by
          have h3 : (b : ℚ) * (2 : ℚ) ^ t < (2 : ℚ) ^ (52 : ℤ) := lt_of_le_of_lt h1 haQ
          have h4 : (b : ℚ) < (2 : ℚ) ^ (52 : ℤ) / (2 : ℚ) ^ t := (lt_div_iff₀ h2t).mpr h3
          rwa [← zpow_sub₀ (by norm_num : (2 : ℚ) ≠ 0)] at h4
        have h5 : (2 : ℚ) ^ (t - 52) < 1 / (b : ℚ) := by
          rw [one_div, show (t - 52 : ℤ) = -(52 - t) by ring, zpow_neg]
          gcongr
        have h7 : (2 : ℚ) ^ (e - 1) < (2 : ℚ) ^ (t - 52) := by
          rw [hets]
          exact zpow_lt_zpow_right₀ (by norm_num) (by omega)
        linarith
    have hlow : (k : ℚ) - 1 < (m : ℚ) * (2 : ℚ) ^ e := by
      have h1 : (r - 1/2) * (2 : ℚ) ^ e ≤ (m : ℚ) * (2 : ℚ) ^ e :=
        mul_le_mul_of_nonneg_right hhalf h2epos.le
      have h2 : (r - 1/2) * (2 : ℚ) ^ e = q - (2 : ℚ) ^ (e - 1) := by
        calc (r - 1/2) * (2 : ℚ) ^ e
            = q * ((2 : ℚ) ^ (-e) * (2 : ℚ) ^ e) - (2 : ℚ) ^ e * (2 : ℚ)⁻¹ := by
              rw [hrdef]; ring
          _ = q - (2 : ℚ) ^ (e - 1) := by
              rw [hee, zpow_sub_one₀ (by norm_num : (2 : ℚ) ≠ 0)]
              ring
      have h4 : ((⌊q⌋ : ℤ) : ℚ) = (k : ℚ) - 1 := by
        rw [hkfl]
        push_cast
        ring
      rw [h2] at h1
      linarith [lt_of_lt_of_le hsmall hstep]
    exact Int.ceil_eq_iff.mpr ⟨by push_cast; exact hlow, hvk⟩

/-- A successful `pyTrueDiv` equals the rounded double when no error fires. -/
theorem pyTrueDiv_ok_of (a b : ℤ) (hbz : b ≠ 0) (v : ℚ)
    (hv : roundDouble ((a : ℚ) / (b : ℚ)) = v) (hlt : |v| < (2 : ℚ) ^ (1024 : ℤ)) :
    pyTrueDiv a b = .ok v := by
  rw [pyTrueDiv, if_neg hbz]
  dsimp only
  rw [hv, if_neg (not_le.mpr hlt)]

/-- A successful `pyCeilDiv` is the exact ceiling of the rounded double. -/
theorem pyCeilDiv_eq_of (a b : ℤ) (hbz : b ≠ 0) (v : ℚ)
    (hv : roundDouble ((a : ℚ) / (b : ℚ)) = v) (hlt : |v| < (2 : ℚ) ^ (1024 : ℤ)) :
    pyCeilDiv a b = .ok ⌈v⌉ := by
  rw [pyCeilDiv, pyTrueDiv_ok_of a b hbz v hv hlt]

/-- Rounding zero gives zero. -/
theorem roundDouble_zero : roundDouble 0 = 0 := by
  rw [roundDouble, if_neg (lt_irrefl 0), roundPosQ]
  norm_num [roundMantissa]

/-- Applying `pyCeilDiv` to a small numerator and a positive, not-too-large
denominator succeeds with the exact rational ceiling (the float rounding
of the quotient is ceiling-exact in this range). -/
theorem pyCeilDiv_ok (a : ℕ) (b : ℤ) (hb : 1 ≤ b) (ha : (a : ℤ) < 2 ^ 52)
    (hbu : b < 2 ^ 1075) :
    pyCeilDiv (a : ℤ) b = .ok ⌈(a : ℚ) / (b : ℚ)⌉ := by
  have hbz : b ≠ 0 := by omega
  have hb0 : (0 : ℚ) < (b : ℚ) := by exact_mod_cast (by omega : (0 : ℤ) < b)
  have hcast : (((a : ℤ) : ℚ)) / ((b : ℚ)) = (a : ℚ) / (b : ℚ) := by push_cast; ring
  by_cases ha0 : a = 0
  · subst ha0
    have hv : roundDouble ((((0 : ℕ) : ℤ) : ℚ) / (b : ℚ)) = 0 := by
      rw [show ((((0 : ℕ) : ℤ) : ℚ) / (b : ℚ)) = 0 by norm_num]
      exact roundDouble_zero
    rw [pyCeilDiv_eq_of _ b hbz 0 hv (by rw [abs_zero]; positivity)]
    norm_num
  · have ha1 : 1 ≤ a := by omega
    obtain ⟨hceil, hv0, hv52⟩ := roundPosQ_ceil a b ha1 ha hb hbu
    have hq0 : (0 : ℚ) < (a : ℚ) / (b : ℚ) :=
      div_pos (by exact_mod_cast (by omega : 0 < a)) hb0
    have hv : roundDouble (((a : ℤ) : ℚ) / (b : ℚ)) = roundPosQ ((a : ℚ) / (b : ℚ)) := by
      rw [hcast, roundDouble, if_neg (not_lt.mpr hq0.le)]
    have hlt : |roundPosQ ((a : ℚ) / (b : ℚ))| < (2 : ℚ) ^ (1024 : ℤ) := by
      rw [abs_of_nonneg hv0]
      have h52 : (2 : ℚ) ^ (52 : ℕ) = (2 : ℚ) ^ (52 : ℤ) := by norm_num
      have hlt2 : (2 : ℚ) ^ (52 : ℤ) < (2 : ℚ) ^ (1024 : ℤ) :=
        zpow_lt_zpow_right₀ (by norm_num) (by norm_num)
      rw [h52] at hv52
      linarith
    rw [pyCeilDiv_eq_of _ b hbz _ hv hlt, hceil]

/-- With a nonzero divisor, the only failure `pyTrueDiv` can produce is an
`OverflowError` â never a `ZeroDivisionError`. -/
theorem pyTrueDiv_error {a b : ℤ} {e : PyErr} (hbz : b ≠ 0)
    (h : pyTrueDiv a b = .error e) : e = .overflowError := by
  rw [pyTrueDiv, if_neg hbz] at h
  dsimp only at h
  split at h
  · cases h
    rfl
  · cases h

/-- With a nonzero divisor, the only failure `pyCeilDiv` can produce is an
`OverflowError` â never a `ZeroDivisionError`. -/
theorem pyCeilDiv_error {a b : ℤ} {e : PyErr} (hbz : b ≠ 0)
    (h : pyCeilDiv a b = .error e) : e = .overflowError := by
  rw [pyCeilDiv] at h
  cases hv : pyTrueDiv a b with
  | error e2 =>
    rw [hv] at h
    cases h
    exact pyTrueDiv_error hbz hv
  | ok v =>
    rw [hv] at h
    cases h

/-- A `mapM` over elements on which `f` succeeds returns a list of results
of the same length. -/
theorem mapM_ok_of_forall {α β : Type} {f : α → Except PyErr β} :
    ∀ {xs : List α}, (∀ a ∈ xs, (f a).isOk = true) →
      ∃ ys, xs.mapM f = .ok ys ∧ ys.length = xs.length := by
  intro xs
  induction xs with
  | nil => exact fun _ => ⟨[], List.mapM_nil f, rfl⟩
  | cons a l ih =>
    intro h
    obtain ⟨b, hb⟩ : ∃ b, f a = .ok b := by
      cases hfa : f a with
      | ok b => exact ⟨b, rfl⟩
      | error e =>
        have := h a (List.mem_cons_self a l)
        rw [hfa] at this
        simp [Except.isOk, Except.toBool] at this
    obtain ⟨bs, hbs, hlen⟩ := ih (fun x hx => h x (List.mem_cons_of_mem a hx))
    refine ⟨b :: bs, ?_, by simp [hlen]⟩
    rw [List.mapM_cons, hb, bindOk, hbs, bindOk]
    rfl

/-- Every element of a Python slice is an element of the sliced list. -/
theorem pySlice_subset {α : Type} (xs : List α) (a b : Int) :
    ∀ x ∈ pySlice xs a b, x ∈ xs := by
  intro x hx
  unfold pySlice at hx
  exact List.mem_of_mem_take (List.mem_of_mem_drop hx)

/-- Evaluation scheme for `generate_response` on a successful pipeline:
composes the fetched list, the pagination arithmetic and the rendered
parts into the final message. -/
theorem generate_response_eval (q : String) (out : CatalogOutcome) (ps : List JVal)
    (page pp tp : Int) (parts : List String)
    (hfetch : fetch_product_details out = .ok ps) (hne : ps.isEmpty = false)
    (hdiv : pyCeilDiv (ps.length : Int) pp = .ok tp)
    (hparts : responseParts ps page pp = .ok parts) :
    generate_response q out page pp = .ok
      ("We found the following matches for your query (Page " ++ toString page ++
       " of " ++ toString tp ++ "):\n\n" ++ String.intercalate "\n" parts ++
       "\n\nUse 'next' or 'prev' to navigate pages.", tp) := by
  simp only [generate_response, hfetch, bindOk, hne, Bool.false_eq_true, if_false,
    hdiv, bindOk, hparts]

/-- Small integers sit far below the overflow bound `2^1075` on divisors. -/
theorem small_lt_two_pow_1075 {b : ℤ} (h : b ≤ 16) : b < 2 ^ 1075 :=
  lt_of_le_of_lt h
    (lt_of_lt_of_le (by norm_num) (pow_le_pow_right₀ (by norm_num) (by norm_num : 5 ≤ 1075)))

/-- Concrete pagination arithmetic: three products, one per page. -/
theorem pyCeilDiv_len3_one : pyCeilDiv (ps3.length : Int) 1 = .ok 3 := by
  rw [show ps3.length = 3 from rfl,
    pyCeilDiv_ok 3 1 (by norm_num) (by norm_num) (small_lt_two_pow_1075 (by norm_num))]
  norm_num

/-- Concrete pagination arithmetic: three products, two per page. -/
theorem pyCeilDiv_len3_two : pyCeilDiv (ps3.length : Int) 2 = .ok 2 := by
  rw [show ps3.length = 3 from rfl,
    pyCeilDiv_ok 3 2 (by norm_num) (by norm_num) (small_lt_two_pow_1075 (by norm_num))]
  congr 1
  rw [Int.ceil_eq_iff] <;> norm_num

/-- Concrete pagination arithmetic: three products, ten per page. -/
theorem pyCeilDiv_len3_ten : pyCeilDiv (ps3.length : Int) 10 = .ok 1 := by
  rw [show ps3.length = 3 from rfl,
    pyCeilDiv_ok 3 10 (by norm_num) (by norm_num) (small_lt_two_pow_1075 (by norm_num))]
  congr 1
  rw [Int.ceil_eq_iff] <;> norm_num

set_option exponentiation.threshold 1300 in
/-- The float quotient `3 / 10^326` lies far below the smallest positive
subnormal double, so it rounds to zero. -/
theorem roundDouble_underflow : roundDouble ((3 : ℚ) / 10 ^ 326) = 0 := by
  have hq0 : (0 : ℚ) < (3 : ℚ) / 10 ^ 326 := by positivity
  have hlog : Int.log 2 ((3 : ℚ) / 10 ^ 326) ≤ -1022 := by
    by_contra hc
    push_neg at hc
    have h2 := @Int.zpow_log_le_self ℚ _ _ 2 ((3 : ℚ) / 10 ^ 326) (by norm_num) hq0
    have h2' : (((2 : ℕ) : ℚ)) ^ (Int.log 2 ((3 : ℚ) / 10 ^ 326)) =
        (2 : ℚ) ^ (Int.log 2 ((3 : ℚ) / 10 ^ 326)) := by norm_num
    rw [h2'] at h2
    have h1 : (2 : ℚ) ^ (-1021 : ℤ) ≤ (2 : ℚ) ^ (Int.log 2 ((3 : ℚ) / 10 ^ 326)) :=
      zpow_le_zpow_right₀ (by norm_num) (by omega)
    have h4 : (3 : ℚ) / 10 ^ 326 < (2 : ℚ) ^ (-1021 : ℤ) := by norm_num
    linarith
  have he : max (Int.log 2 ((3 : ℚ) / 10 ^ 326) - 52) (-1074) = (-1074 : ℤ) := by omega
  rw [roundDouble, if_neg (not_lt.mpr hq0.le), roundPosQ, he]
  have hrlt : (3 : ℚ) / 10 ^ 326 * (2 : ℚ) ^ (-(-1074 : ℤ)) < 1/2 := by norm_num
  have hr0 : (0 : ℚ) ≤ (3 : ℚ) / 10 ^ 326 * (2 : ℚ) ^ (-(-1074 : ℤ)) := by positivity
  have hfl : ⌊(3 : ℚ) / 10 ^ 326 * (2 : ℚ) ^ (-(-1074 : ℤ))⌋ = 0 :=
    Int.floor_eq_zero_iff.mpr ⟨hr0, by linarith⟩
  have hfr : Int.fract ((3 : ℚ) / 10 ^ 326 * (2 : ℚ) ^ (-(-1074 : ℤ))) =
      (3 : ℚ) / 10 ^ 326 * (2 : ℚ) ^ (-(-1074 : ℤ)) :=
    Int.fract_eq_self.mpr ⟨hr0, by linarith⟩
  rw [roundMantissa, if_pos (by rw [hfr]; exact hrlt), hfl]
  norm_num

set_option exponentiation.threshold 1300 in
/-- Concrete pagination arithmetic at the refuting input: three products,
`per_page = 10^326` — the float quotient underflows and `math.ceil` gives
zero pages. -/
theorem pyCeilDiv_len3_big : pyCeilDiv (ps3.length : Int) (10 ^ 326) = .ok 0 := by
  rw [show ps3.length = 3 from rfl]
  have hv : roundDouble ((((3 : ℕ) : ℤ) : ℚ) / (((10 ^ 326 : ℤ)) : ℚ)) = 0 := by
    rw [show ((((3 : ℕ) : ℤ) : ℚ)) / (((10 ^ 326 : ℤ)) : ℚ) = (3 : ℚ) / 10 ^ 326 by
      push_cast; norm_num]
    exact roundDouble_underflow
  rw [pyCeilDiv_eq_of _ _ (pow_ne_zero 326 (by norm_num)) 0 hv
    (by rw [abs_zero]; positivity)]
  norm_num

/-! ## Spec-side characterization of the query parser (for C7) -/

/-- The maximal word-character runs ("tokens") of a string. -/
def wordTokens : List Char → List (List Char)
  | [] => []
  | c :: cs =>
    if isWordChar c then
      (c :: cs.takeWhile isWordChar) :: wordTokens (cs.dropWhile isWordChar)
    else
      wordTokens cs
termination_by l => l.length
decreasing_by
  · simp_wf
    exact Nat.lt_succ_of_le ((List.dropWhile_sublist isWordChar).length_le)
  · simp_wf

/-- A standalone 4-digit token beginning with 19 or 20, as the spec words
the year field. -/
def isYearToken (t : List Char) : Bool :=
  t.length = 4 && t.all isDigitChar &&
    (t.take 2 = ['1', '9'] || t.take 2 = ['2', '0'])

/-- The first standalone 4-digit 19xx/20xx token of a string. -/
def firstYearToken (s : List Char) : Option (List Char) :=
  (wordTokens s).find? isYearToken

/-- Shape predicate for a boat-model match: a case-insensitive
`Hewescraft` prefix, then nonempty whitespace, digit and whitespace runs,
ending in a nonempty run of word characters. -/
def modelShape (l : List Char) : Bool :=
  ((l.take 10).map Char.toLower = "hewescraft".data) &&
  (let r1 := l.drop 10
   let s1 := r1.takeWhile isSpaceChar
   let r2 := r1.dropWhile isSpaceChar
   let d1 := r2.takeWhile isDigitChar
   let r3 := r2.dropWhile isDigitChar
   let s2 := r3.takeWhile isSpaceChar
   let r4 := r3.dropWhile isSpaceChar
   !s1.isEmpty && !d1.isEmpty && !s2.isEmpty && !r4.isEmpty && r4.all isWordChar)

/-- The category vocabulary (lowercased) the product field can return. -/
def productVocab : List (List Char) :=
  ["zinc plate".data, "zinc plates".data, "boat stand".data, "boat stands".data,
   "anode".data, "anodes".data, "paint".data, "paints".data]

/-! ## Character class facts -/

/-- An ASCII digit is a word character. -/
theorem word_of_digit {c : Char} (h : isDigitChar c = true) : isWordChar c = true := by
  simp [isDigitChar, isWordChar] at *
  omega

/-- An ASCII digit is not whitespace. -/
theorem digit_not_space {c : Char} (h : isDigitChar c = true) : isSpaceChar c = false := by
  simp [isDigitChar, isSpaceChar] at *
  omega

/-- Whitespace is not a digit. -/
theorem space_not_digit {c : Char} (h : isSpaceChar c = true) : isDigitChar c = false := by
  simp [isDigitChar, isSpaceChar] at *
  omega

/-- A word character is not whitespace. -/
theorem word_not_space {c : Char} (h : isWordChar c = true) : isSpaceChar c = false := by
  simp [isWordChar, isSpaceChar] at *
  omega

/-! ## takeWhile/dropWhile helpers -/

/-- Computing `takeWhile` over an append whose left part satisfies `p` everywhere and
whose right part stops immediately. -/
theorem takeWhile_append_stop {α : Type} {p : α → Bool} :
    ∀ {xs ys : List α}, (∀ x ∈ xs, p x = true) → ys.takeWhile p = [] →
      (xs ++ ys).takeWhile p = xs ∧ (xs ++ ys).dropWhile p = ys := by
  intro xs
  induction xs with
  | nil =>
    intro ys _ hys
    refine ⟨hys, ?_⟩
    cases ys with
    | nil => rfl
    | cons y ys' =>
      rw [List.takeWhile_cons] at hys
      rw [List.nil_append, List.dropWhile_cons]
      split at hys
      · cases hys
      · rename_i hp
        rw [if_neg hp]
  | cons a xs ih =>
    intro ys hall hys
    have hpa : p a = true := hall a (List.mem_cons_self a xs)
    obtain ⟨h1, h2⟩ := ih (fun x hx => hall x (List.mem_cons_of_mem a hx)) hys
    constructor
    · rw [List.cons_append, List.takeWhile_cons, if_pos hpa, h1]
    · rw [List.cons_append, List.dropWhile_cons, if_pos hpa, h2]

/-- A list starting with an element failing `p` has an empty `takeWhile`. -/
theorem takeWhile_nil_of_head {α : Type} {p : α → Bool} {y : α} {ys : List α}
    (h : p y = false) : (y :: ys).takeWhile p = [] := by
  rw [List.takeWhile_cons, if_neg (by simp [h])]

/-! ## `stripPrefixCI` facts -/

/-- A successful case-insensitive strip: the consumed characters lower to
the pattern, the leftover is the drop, and the input is long enough. -/
theorem stripPrefixCI_some :
    ∀ {pat rest r : List Char}, stripPrefixCI pat rest = some r →
      (rest.take pat.length).map Char.toLower = pat ∧
      rest.drop pat.length = r ∧ pat.length ≤ rest.length := by
  intro pat
  induction pat with
  | nil =>
    intro rest r h
    cases h
    exact ⟨rfl, rfl, Nat.zero_le _⟩
  | cons p ps ih =>
    intro rest r h
    cases rest with
    | nil => cases h
    | cons c cs =>
      rw [stripPrefixCI] at h
      split at h
      · obtain ⟨h1, h2, h3⟩ := ih h
        rename_i hlow
        refine ⟨?_, h2, by simpa using h3⟩
        simp only [List.length_cons, List.take_succ_cons, List.map_cons, h1, hlow]
      · cases h

/-! ## The year search finds exactly the first standalone year token -/

/-- The year pattern cannot match at a non-word character. -/
theorem yearMatchAt_none_of_nonword {c : Char} {cs : List Char}
    (hw : isWordChar c = false) : yearMatchAt (c :: cs) = none := by
  cases cs with
  | nil => rfl
  | cons d2 cs2 =>
    cases cs2 with
    | nil => rfl
    | cons d3 cs3 =>
      cases cs3 with
      | nil => rfl
      | cons d4 rest =>
        simp only [yearMatchAt]
        split
        · rename_i hcond
          exfalso
          simp only [Bool.and_eq_true, Bool.or_eq_true, decide_eq_true_eq] at hcond
          rcases hcond.1.1.1 with ⟨h1, _⟩ | ⟨h1, _⟩ <;> subst h1 <;>
            exact absurd hw (by decide)
        · rfl

/-- A successful year match is the token starting at the position, and it
is a year token. -/
theorem yearMatchAt_some {c : Char} {cs m : List Char}
    (h : yearMatchAt (c :: cs) = some m) :
    m = c :: cs.takeWhile isWordChar ∧ isYearToken m = true := by
  cases cs with
  | nil => cases h
  | cons d2 cs2 =>
    cases cs2 with
    | nil => cases h
    | cons d3 cs3 =>
      cases cs3 with
      | nil => cases h
      | cons d4 rest =>
        simp only [yearMatchAt] at h
        split at h
        case isFalse => cases h
        case isTrue hcond =>
        cases h
        simp only [Bool.and_eq_true, Bool.or_eq_true, decide_eq_true_eq] at hcond
        obtain ⟨⟨⟨hab, hd3⟩, hd4⟩, hbnd⟩ := hcond
        have hcd : isDigitChar c = true ∧ isDigitChar d2 = true := by
          rcases hab with ⟨h1, h2⟩ | ⟨h1, h2⟩ <;> subst h1 <;> subst h2 <;>
            exact ⟨by decide, by decide⟩
        have hrestTW : rest.takeWhile isWordChar = [] := by
          cases rest with
          | nil => rfl
          | cons r rs =>
            refine takeWhile_nil_of_head ?_
            simpa using hbnd
        have htw : (d2 :: d3 :: d4 :: rest).takeWhile isWordChar = [d2, d3, d4] := by
          rw [List.takeWhile_cons, if_pos (word_of_digit hcd.2),
              List.takeWhile_cons, if_pos (word_of_digit hd3),
              List.takeWhile_cons, if_pos (word_of_digit hd4), hrestTW]
        refine ⟨by rw [htw], ?_⟩
        rcases hab with ⟨h1, h2⟩ | ⟨h1, h2⟩ <;> subst h1 <;> subst h2 <;>
          simp [isYearToken, hd3, hd4] <;> decide

/-- Conversely, if the token starting at a position is a year token, the
year pattern matches there and returns it. -/
theorem yearMatchAt_some_of_token {c : Char} {cs : List Char}
    (hyt : isYearToken (c :: cs.takeWhile isWordChar) = true) :
    yearMatchAt (c :: cs) = some (c :: cs.takeWhile isWordChar) := by
  cases cs with
  | nil => simp [isYearToken] at hyt
  | cons d2 cs2 =>
    cases hw2 : isWordChar d2 with
    | false =>
      rw [List.takeWhile_cons, if_neg (by simp [hw2])] at hyt
      simp [isYearToken] at hyt
    | true =>
      rw [List.takeWhile_cons, if_pos hw2] at hyt
      cases cs2 with
      | nil => simp [isYearToken] at hyt
      | cons d3 cs3 =>
        cases hw3 : isWordChar d3 with
        | false =>
          rw [List.takeWhile_cons, if_neg (by simp [hw3])] at hyt
          simp [isYearToken] at hyt
        | true =>
          rw [List.takeWhile_cons, if_pos hw3] at hyt
          cases cs3 with
          | nil => simp [isYearToken] at hyt
          | cons d4 rest =>
            cases hw4 : isWordChar d4 with
            | false =>
              rw [List.takeWhile_cons, if_neg (by simp [hw4])] at hyt
              simp [isYearToken] at hyt
            | true =>
              rw [List.takeWhile_cons, if_pos hw4] at hyt
              have hlen : (c :: d2 :: d3 :: d4 :: rest.takeWhile isWordChar).length = 4 := by
                simp only [isYearToken, Bool.and_eq_true, decide_eq_true_eq] at hyt
                exact hyt.1.1
              have hrestTW : rest.takeWhile isWordChar = [] := by
                simp only [List.length_cons] at hlen
                exact List.length_eq_zero.mp (by omega)
              rw [List.takeWhile_cons, if_pos hw2, List.takeWhile_cons, if_pos hw3,
                  List.takeWhile_cons, if_pos hw4, hrestTW]
              rw [hrestTW] at hyt
              have hall : isDigitChar c = true ∧ isDigitChar d2 = true ∧
                  isDigitChar d3 = true ∧ isDigitChar d4 = true := by
                have h2 := hyt
                simp only [isYearToken, Bool.and_eq_true] at h2
                have h3 := h2.1.2
                simp only [List.all_cons, List.all_nil, Bool.and_eq_true,
                  Bool.and_true] at h3
                exact ⟨h3.1, h3.2.1, h3.2.2.1, h3.2.2.2⟩
              obtain ⟨hdc, hd2, hd3, hd4⟩ := hall
              have hor : (c = '1' ∧ d2 = '9') ∨ (c = '2' ∧ d2 = '0') := by
                have h2 := hyt
                simp only [isYearToken, Bool.and_eq_true, Bool.or_eq_true,
                  decide_eq_true_eq, List.take_succ_cons, List.take_zero,
                  List.cons.injEq, and_true] at h2
                exact h2.2
              cases rest with
              | nil =>
                simp only [yearMatchAt]
                rw [if_pos]
                simp only [Bool.and_eq_true, Bool.or_eq_true, decide_eq_true_eq]
                exact ⟨⟨⟨hor, hd3⟩, hd4⟩, trivial⟩
              | cons r rs =>
                have hr : isWordChar r = false := by
                  rw [List.takeWhile_cons] at hrestTW
                  split at hrestTW
                  · cases hrestTW
                  · rename_i h
                    simpa using h
                simp only [yearMatchAt]
                rw [if_pos]
                simp only [Bool.and_eq_true, Bool.or_eq_true, decide_eq_true_eq]
                exact ⟨⟨⟨hor, hd3⟩, hd4⟩, by simp [hr]⟩

/-- The `re.search` scan for the year pattern returns exactly the first
standalone 19xx/20xx token (the token under way at entry excluded when the
previous character is a word character). -/
theorem yearSearch_eq_firstYearToken :
    ∀ (s : List Char) (prevWord : Bool),
      yearSearch prevWord s =
        (wordTokens (if prevWord then s.dropWhile isWordChar else s)).find? isYearToken := by
  intro s
  induction s with
  | nil => intro prevWord; cases prevWord <;> simp [yearSearch, wordTokens]
  | cons c cs ih =>
    intro prevWord
    cases prevWord with
    | true =>
      rw [show yearSearch true (c :: cs) = yearSearch (isWordChar c) cs from rfl]
      cases hw : isWordChar c with
      | true =>
        rw [if_pos rfl, List.dropWhile_cons, if_pos hw]
        have := ih true
        rw [if_pos rfl] at this
        exact this
      | false =>
        rw [if_pos rfl, List.dropWhile_cons, if_neg (by simp [hw])]
        rw [wordTokens, if_neg (by simp [hw])]
        have := ih false
        rw [if_neg (by simp)] at this
        exact this
    | false =>
      rw [if_neg (by simp)]
      cases hw : isWordChar c with
      | false =>
        rw [show yearSearch false (c :: cs) =
              (match yearMatchAt (c :: cs) with
               | some m => some m
               | none => yearSearch (isWordChar c) cs) from rfl]
        rw [yearMatchAt_none_of_nonword hw, hw]
        rw [wordTokens, if_neg (by simp [hw])]
        have := ih false
        rw [if_neg (by simp)] at this
        exact this
      | true =>
        rw [show yearSearch false (c :: cs) =
              (match yearMatchAt (c :: cs) with
               | some m => some m
               | none => yearSearch (isWordChar c) cs) from rfl]
        rw [wordTokens, if_pos hw, List.find?_cons]
        cases hym : yearMatchAt (c :: cs) with
        | some m =>
          obtain ⟨hm, hyt⟩ := yearMatchAt_some hym
          subst hm
          rw [hyt]
        | none =>
          have hyt : isYearToken (c :: cs.takeWhile isWordChar) = false := by
            cases hyt : isYearToken (c :: cs.takeWhile isWordChar) with
            | false => rfl
            | true => rw [yearMatchAt_some_of_token hyt] at hym; cases hym
          rw [hyt, hw]
          have := ih true
          rw [if_pos rfl] at this
          exact this

/-! ## The model search yields Hewescraft-shaped matches -/

/-- A successful boat-model match has the `Hewescraft <spaces> <digits>
<spaces> <word>` shape. -/
theorem modelMatchAt_shape {rest m : List Char} (h : modelMatchAt rest = some m) :
    modelShape m = true := by
  rw [modelMatchAt] at h
  cases hs : stripPrefixCI "hewescraft".data rest with
  | none => rw [hs] at h; cases h
  | some r1 =>
    rw [hs] at h
    dsimp only at h
    obtain ⟨hmap, hdrop, hlen10⟩ := stripPrefixCI_some hs
    split at h
    case isFalse => cases h
    case isTrue hcond =>
    simp only [Bool.and_eq_true, Bool.not_eq_true', List.isEmpty_eq_false,
      ne_eq] at hcond
    obtain ⟨⟨⟨hs1ne, hd1ne⟩, hs2ne⟩, hw1ne⟩ := hcond
    cases h
    have hplen : ("hewescraft".data).length = 10 := rfl
    rw [hplen] at hmap hdrop hlen10
    -- name the runs
    set s1 := r1.takeWhile isSpaceChar with hs1def
    set r2 := r1.dropWhile isSpaceChar with hr2def
    set d1 := r2.takeWhile isDigitChar with hd1def
    set r3 := r2.dropWhile isDigitChar with hr3def
    set s2 := r3.takeWhile isSpaceChar with hs2def
    set r4 := r3.dropWhile isSpaceChar with hr4def
    set w1 := r4.takeWhile isWordChar with hw1def
    set r5 := r4.dropWhile isWordChar with hr5def
    have hsplit1 : s1 ++ r2 = r1 := List.takeWhile_append_dropWhile isSpaceChar r1
    have hsplit2 : d1 ++ r3 = r2 := List.takeWhile_append_dropWhile isDigitChar r2
    have hsplit3 : s2 ++ r4 = r3 := List.takeWhile_append_dropWhile isSpaceChar r3
    have hsplit4 : w1 ++ r5 = r4 := List.takeWhile_append_dropWhile isWordChar r4
    have hr1eq : r1 = (s1 ++ (d1 ++ (s2 ++ w1))) ++ r5 := by
      rw [← hsplit1, ← hsplit2, ← hsplit3, ← hsplit4]
      simp [List.append_assoc]
    have hrest : rest = rest.take 10 ++ r1 := by
      rw [← hdrop, List.take_append_drop]
    have htklen : (rest.take 10).length = 10 := by
      rw [List.length_take]
      omega
    have hr1len : r1.length = (s1 ++ (d1 ++ (s2 ++ w1))).length + r5.length := by
      rw [hr1eq, List.length_append]
    have hrlen : rest.length = 10 + r1.length := by
      conv_lhs => rw [hrest]
      rw [List.length_append, htklen]
    have hm : rest.take (rest.length - r5.length) =
        rest.take 10 ++ (s1 ++ (d1 ++ (s2 ++ w1))) := by
      have hKlen : rest.length - r5.length = 10 + (s1 ++ (d1 ++ (s2 ++ w1))).length := by
        omega
      rw [hKlen]
      conv_lhs => rw [hrest]
      rw [List.take_append_eq_append_take, htklen,
        List.take_of_length_le (by omega : (rest.take 10).length ≤
          10 + (s1 ++ (d1 ++ (s2 ++ w1))).length)]
      congr 1
      rw [Nat.add_sub_cancel_left, hr1eq, List.take_left]
    rw [hm]
    -- the shape now computes
    have hdig_head : (d1 ++ (s2 ++ w1)).takeWhile isSpaceChar = [] := by
      cases hd1 : d1 with
      | nil => exact absurd hd1 hd1ne
      | cons e d1' =>
        rw [List.cons_append]
        refine takeWhile_nil_of_head ?_
        refine digit_not_space (List.mem_takeWhile_imp
          (show e ∈ r2.takeWhile isDigitChar by
            rw [← hd1def, hd1]; exact List.mem_cons_self e d1'))
    have hsp2_head : (s2 ++ w1).takeWhile isDigitChar = [] := by
      cases hs2 : s2 with
      | nil => exact absurd hs2 hs2ne
      | cons e s2' =>
        rw [List.cons_append]
        refine takeWhile_nil_of_head ?_
        refine space_not_digit (List.mem_takeWhile_imp
          (show e ∈ r3.takeWhile isSpaceChar by
            rw [← hs2def, hs2]; exact List.mem_cons_self e s2'))
    have hw1_head : w1.takeWhile isSpaceChar = [] := by
      cases hw1 : w1 with
      | nil => exact absurd hw1 hw1ne
      | cons e w1' =>
        refine takeWhile_nil_of_head ?_
        refine word_not_space (List.mem_takeWhile_imp
          (show e ∈ r4.takeWhile isWordChar by
            rw [← hw1def, hw1]; exact List.mem_cons_self e w1'))
    obtain ⟨htw1, hdw1⟩ := takeWhile_append_stop
      (fun x hx => List.mem_takeWhile_imp (hs1def ▸ hx : x ∈ r1.takeWhile isSpaceChar))
      hdig_head
    obtain ⟨htw2, hdw2⟩ := takeWhile_append_stop
      (fun x hx => List.mem_takeWhile_imp (hd1def ▸ hx : x ∈ r2.takeWhile isDigitChar))
      hsp2_head
    obtain ⟨htw3, hdw3⟩ := takeWhile_append_stop
      (fun x hx => List.mem_takeWhile_imp (hs2def ▸ hx : x ∈ r3.takeWhile isSpaceChar))
      hw1_head
    have htake : (rest.take 10 ++ (s1 ++ (d1 ++ (s2 ++ w1)))).take 10 = rest.take 10 :=
      List.take_left' htklen
    have hdrop10 : (rest.take 10 ++ (s1 ++ (d1 ++ (s2 ++ w1)))).drop 10 =
        s1 ++ (d1 ++ (s2 ++ w1)) :=
      List.drop_left' htklen
    have hall : w1.all isWordChar = true :=
      List.all_eq_true.mpr
        (fun x hx => List.mem_takeWhile_imp (hw1def ▸ hx : x ∈ r4.takeWhile isWordChar))
    simp only [modelShape, htake, hmap, hdrop10, htw1, hdw1, htw2, hdw2, htw3, hdw3,
      hall, Bool.and_eq_true, decide_eq_true_eq, Bool.not_eq_true',
      List.isEmpty_eq_false]
    exact ⟨trivial, ⟨⟨⟨hs1ne, hd1ne⟩, hs2ne⟩, hw1ne⟩, trivial⟩

/-- Every match returned by the boat-model scan has the Hewescraft shape. -/
theorem modelSearch_shape :
    ∀ (s : List Char) (prevWord : Bool) (m : List Char),
      modelSearch prevWord s = some m → modelShape m = true := by
  intro s
  induction s with
  | nil => intro prevWord m h; cases h
  | cons c cs ih =>
    intro prevWord m h
    rw [show modelSearch prevWord (c :: cs) =
          (match (if prevWord then none else modelMatchAt (c :: cs)) with
           | some m => some m
           | none => modelSearch (isWordChar c) cs) from rfl] at h
    cases prevWord with
    | true => exact ih (isWordChar c) m (by simpa using h)
    | false =>
      rw [if_neg (by simp)] at h
      cases hm : modelMatchAt (c :: cs) with
      | some m0 =>
        rw [hm] at h
        cases h
        exact modelMatchAt_shape hm
      | none =>
        rw [hm] at h
        exact ih (isWordChar c) m h

/-! ## The product search yields vocabulary matches -/

/-- A successful alternative match lowers to the literal, possibly with a
plural `s`. -/
theorem prodAlt_lower {pat rest m : List Char} (h : prodAlt pat rest = some m) :
    m.map Char.toLower = pat ∨ m.map Char.toLower = pat ++ ['s'] := by
  cases hs : stripPrefixCI pat rest with
  | none => rw [prodAlt, hs] at h; cases h
  | some r =>
    obtain ⟨hmap, hdrop, hlen⟩ := stripPrefixCI_some hs
    cases r with
    | nil =>
      have hval : prodAlt pat rest = some (rest.take pat.length) := by
        rw [prodAlt, hs]
      rw [hval] at h
      cases h
      exact Or.inl hmap
    | cons c cs =>
      have htake1 : rest.take (pat.length + 1) = rest.take pat.length ++ [c] := by
        rw [List.take_add, hdrop, List.take_succ_cons, List.take_zero]
      have hplural : (rest.take (pat.length + 1)).map Char.toLower = pat ++ [c.toLower] := by
        rw [htake1, List.map_append, hmap]
        rfl
      by_cases hsc : c.toLower = 's'
      · cases cs with
        | nil =>
          have hval : prodAlt pat rest = some (rest.take (pat.length + 1)) := by
            rw [prodAlt, hs]
            dsimp only
            rw [if_pos hsc]
          rw [hval] at h
          cases h
          rw [hplural, hsc]
          exact Or.inr rfl
        | cons d rest2 =>
          by_cases hwd : isWordChar d = true
          · have hval : prodAlt pat rest = none := by
              rw [prodAlt, hs]
              dsimp only
              rw [if_pos hsc, if_pos hwd]
            rw [hval] at h
            cases h
          · have hval : prodAlt pat rest = some (rest.take (pat.length + 1)) := by
              rw [prodAlt, hs]
              dsimp only
              rw [if_pos hsc, if_neg hwd]
            rw [hval] at h
            cases h
            rw [hplural, hsc]
            exact Or.inr rfl
      · by_cases hwc : isWordChar c = true
        · have hval : prodAlt pat rest = none := by
            rw [prodAlt, hs]
            dsimp only
            rw [if_neg hsc, if_pos hwc]
          rw [hval] at h
          cases h
        · have hval : prodAlt pat rest = some (rest.take pat.length) := by
            rw [prodAlt, hs]
            dsimp only
            rw [if_neg hsc, if_neg hwc]
          rw [hval] at h
          cases h
          exact Or.inl hmap

/-- A successful product-category match lowers to one of the eight
vocabulary words. -/
theorem productMatchAt_vocab {rest m : List Char} (h : productMatchAt rest = some m) :
    m.map Char.toLower ∈ productVocab := by
  rw [productMatchAt] at h
  cases h1 : prodAlt "zinc plate".data rest with
  | some m0 =>
    rw [h1] at h
    dsimp only at h
    cases h
    rcases prodAlt_lower h1 with hl | hl <;> rw [hl] <;> decide
  | none =>
    rw [h1] at h
    dsimp only at h
    cases h2 : prodAlt "boat stand".data rest with
    | some m0 =>
      rw [h2] at h
      dsimp only at h
      cases h
      rcases prodAlt_lower h2 with hl | hl <;> rw [hl] <;> decide
    | none =>
      rw [h2] at h
      dsimp only at h
      cases h3 : prodAlt "anode".data rest with
      | some m0 =>
        rw [h3] at h
        dsimp only at h
        cases h
        rcases prodAlt_lower h3 with hl | hl <;> rw [hl] <;> decide
      | none =>
        rw [h3] at h
        dsimp only at h
        rcases prodAlt_lower h with hl | hl <;> rw [hl] <;> decide

/-- Every match returned by the product scan lowers to a vocabulary word. -/
theorem productSearch_vocab :
    ∀ (s : List Char) (prevWord : Bool) (m : List Char),
      productSearch prevWord s = some m → m.map Char.toLower ∈ productVocab := by
  intro s
  induction s with
  | nil => intro prevWord m h; cases h
  | cons c cs ih =>
    intro prevWord m h
    rw [show productSearch prevWord (c :: cs) =
          (match (if prevWord then none else productMatchAt (c :: cs)) with
           | some m => some m
           | none => productSearch (isWordChar c) cs) from rfl] at h
    cases prevWord with
    | true => exact ih (isWordChar c) m (by simpa using h)
    | false =>
      rw [if_neg (by simp)] at h
      cases hm : productMatchAt (c :: cs) with
      | some m0 =>
        rw [hm] at h
        cases h
        exact productMatchAt_vocab hm
      | none =>
        rw [hm] at h
        exact ih (isWordChar c) m h

/-! ## Claim theorems -/

/-- Claim C7: `parse_query` extracts the three fields independently and
totally — the year field is exactly the first standalone 4-digit token
beginning 19 or 20 (proved against the tokenization-based reading of the
spec), the model and product fields are the leftmost matches of their
fixed case-insensitive patterns, every returned model match has the
`Hewescraft <digits> <word>` shape, and every returned product match
lowers to the fixed category vocabulary (with plurals). -/
theorem C7_parse_query_contract (q : String) :
    (parse_query q).year = (firstYearToken q.data).map List.asString ∧
    (parse_query q).model = (modelSearch false q.data).map List.asString ∧
    (parse_query q).product = (productSearch false q.data).map List.asString ∧
    Option.all (fun m => modelShape m.data) (parse_query q).model = true ∧
    Option.all (fun p => decide (p.data.map Char.toLower ∈ productVocab))
      (parse_query q).product = true := by
  refine ⟨?_, rfl, rfl, ?_, ?_⟩
  · show (yearSearch false q.data).map List.asString = _
    rw [yearSearch_eq_firstYearToken q.data false, if_neg (by simp)]
    rfl
  · show Option.all _ ((modelSearch false q.data).map List.asString) = true
    cases hm : modelSearch false q.data with
    | none => rfl
    | some m =>
      show modelShape (List.asString m).data = true
      exact modelSearch_shape q.data false m hm
  · show Option.all _ ((productSearch false q.data).map List.asString) = true
    cases hp : productSearch false q.data with
    | none => rfl
    | some p =>
      show decide ((List.asString p).data.map Char.toLower ∈ productVocab) = true
      exact decide_eq_true (productSearch_vocab q.data false p hp)

/-- Claim C1 (code bug): a request whose catalog lookup yields zero products
does NOT get the fallback message. `generate_response` builds the fallback
text but its `return response_message, total_pages` reads `total_pages`,
which is assigned only on the non-empty branch, so the call raises
`UnboundLocalError` and `/get_response` answers with the generic 500
instead of the fallback. Evaluated here at a concrete zero-product input
(the claim and the spec say the fallback text is returned). -/
theorem C1_zero_products_raises_unbound_local :
    fetch_product_details .transportError = .ok [] ∧
    generate_response "anode" .transportError 1 10 = .error .unboundLocalError ∧
    get_response ⟨some "anode", none, none⟩ .transportError .apiError = internalError :=
  ⟨rfl, rfl, rfl⟩

/-- Claim C2 (code bug): when the catalog client's outbound call fails, the
`except` clause of `fetch_product_details` does return `[]`, but the
zero-product path of `generate_response` then raises `UnboundLocalError`
(see C1), so `/get_response` answers 500, not the claimed 200 with the
fallback message. Evaluated at a concrete transport failure. -/
theorem C2_upstream_failure_yields_500 :
    fetch_product_details .transportError = .ok [] ∧
    get_response ⟨some "zinc plate", none, none⟩ .transportError .apiError = internalError ∧
    (get_response ⟨some "zinc plate", none, none⟩ .transportError .apiError).status ≠ 200 :=
  ⟨rfl, rfl, by decide⟩

/-- Claim C3, counterexample: a request with the query missing but a
malformed `page` value is answered 500, not 400 — `int(request.args.get
('page', 1))` runs before the missing-query check and its `ValueError`
falls into the catch-all. This refutes the claim's "regardless of what
page and per_page values the request carries". -/
theorem C3_counterexample :
    get_response ⟨none, some "abc", none⟩ .transportError .apiError = internalError ∧
    internalError ≠ ⟨400, .errorBody "Query is required"⟩ :=
  ⟨rfl, by decide⟩

/-- Claim C3 as amended: a request with `query` missing or empty is answered
400 with `{"error": "Query is required"}` provided `page` and `per_page`
are absent or parse as integers; a malformed `page`/`per_page` instead
yields the generic 500. -/
theorem C3_missing_query_400 (q ps pps : Option String) (out : CatalogOutcome)
    (ai : AIOutcome) (hq : q = none ∨ q = some "")
    (hp : (parseArg 1 ps).isOk = true) (hpp : (parseArg 10 pps).isOk = true) :
    get_response ⟨q, ps, pps⟩ out ai = ⟨400, .errorBody "Query is required"⟩ := by
  obtain ⟨p, hpv⟩ : ∃ v, parseArg 1 ps = .ok v := by
    cases h : parseArg 1 ps with
    | ok v => exact ⟨v, rfl⟩
    | error e => rw [h] at hp; simp [Except.isOk, Except.toBool] at hp
  obtain ⟨pp, hppv⟩ : ∃ v, parseArg 10 pps = .ok v := by
    cases h : parseArg 10 pps with
    | ok v => exact ⟨v, rfl⟩
    | error e => rw [h] at hpp; simp [Except.isOk, Except.toBool] at hpp
  rcases hq with hq | hq <;> subst hq <;>
    simp only [get_response, hpv, hppv] <;> rfl

/-- Witness for C3's amended theorem at a concrete request. -/
theorem C3_missing_query_400_witness :
    get_response ⟨none, some "7", some "2"⟩ .transportError .apiError =
      ⟨400, .errorBody "Query is required"⟩ :=
  C3_missing_query_400 none (some "7") (some "2") .transportError .apiError
    (Or.inl rfl) (by decide) (by decide)

/-- Claim C4, counterexample: a 2xx response whose JSON body parses but
lacks the `data` key makes `['data']` raise `KeyError`, which the
`except requests.RequestException` clause does not catch: the exception
propagates to the caller, refuting "never propagates an exception". -/
theorem C4_counterexample :
    fetch_product_details (.httpResponse 200 (some (.obj [("errors", .arr [])]))) =
      .error .keyError :=
  rfl

/-- Claim C4 as amended: transport errors, 4xx/5xx statuses and bodies that
fail JSON decoding (a `RequestException` in requests ≥ 2.27) are caught and
degrade to the empty list, but a decoded body without the expected
`data`/`products`/`edges` shape raises a `KeyError` that propagates. -/
theorem C4_degrades_except_shape_errors (status : Nat) (body : Option JVal) :
    fetch_product_details .transportError = .ok [] ∧
    (400 ≤ status → status < 600 → fetch_product_details (.httpResponse status body) = .ok []) ∧
    fetch_product_details (.httpResponse status none) = .ok [] ∧
    fetch_product_details (.httpResponse 200 (some (.obj []))) = .error .keyError := by
  refine ⟨rfl, ?_, ?_, rfl⟩
  · intro h1 h2
    have hcond : (400 ≤ status && status < 600) = true := by simp [h1, h2]
    simp [fetch_product_details, hcond]
  · simp only [fetch_product_details]
    split <;> rfl

/-- Witness for C4's amended theorem at a concrete 503 response. -/
theorem C4_degrades_witness :
    fetch_product_details (.httpResponse 503 (some (.str "Service Unavailable"))) = .ok [] :=
  (C4_degrades_except_shape_errors 503 (some (.str "Service Unavailable"))).2.1
    (by norm_num) (by norm_num)

/-- Claim C5, amended: whenever `generate_response` returns (rather than
raising), the `total_pages` value it returns equals `ceil(total_products /
per_page)` where `total_products` is the length of the fetched product
list, for every positive `per_page` below `2^1075`, provided
`total_products < 2^52` (the storefront request caps the list at ten).
The bounds are forced by line 86: `total_products / per_page` is Python
float division, which is exact on this range but rounds — and for huge
`per_page` underflows to `0.0` — beyond it; see `C5_counterexample`. -/
theorem C5_total_pages_is_ceil (q : String) (out : CatalogOutcome) (page pp : Int)
    (msg : String) (tp : Int) (ps : List JVal)
    (hfetch : fetch_product_details out = .ok ps) (hpp : 1 ≤ pp)
    (hsz : (ps.length : Int) < 2 ^ 52) (hppu : pp < 2 ^ 1075)
    (hok : generate_response q out page pp = .ok (msg, tp)) :
    tp = ⌈(ps.length : ℚ) / (pp : ℚ)⌉ := by
  simp only [generate_response, hfetch, bindOk] at hok
  by_cases hemp : ps.isEmpty = true
  · rw [if_pos hemp] at hok; cases hok
  · rw [if_neg hemp, pyCeilDiv_ok ps.length pp hpp hsz hppu, bindOk] at hok
    cases hparts : responseParts ps page pp with
    | error e => rw [hparts, bindErr] at hok; cases hok
    | ok parts =>
      rw [hparts, bindOk] at hok
      cases hok
      rfl

/-- Witness for C5 at a concrete input: three products, `per_page = 2`. -/
theorem C5_total_pages_witness : (2 : Int) = ⌈(ps3.length : ℚ) / ((2 : Int) : ℚ)⌉ :=
  C5_total_pages_is_ceil "anode" out3 1 2
    ("We found the following matches for your query (Page " ++ toString (1 : ℤ) ++
     " of " ++ toString (2 : ℤ) ++ "):\n\n" ++
     String.intercalate "\n"
       ["[Zinc A](https://zincsforboats.com/products/a)",
        "[Zinc B](https://zincsforboats.com/products/b)"] ++
     "\n\nUse 'next' or 'prev' to navigate pages.")
    2 ps3 rfl (by norm_num) (by rw [show ps3.length = 3 from rfl]; norm_num)
    (small_lt_two_pow_1075 (by norm_num))
    (generate_response_eval "anode" out3 ps3 1 2 2
      ["[Zinc A](https://zincsforboats.com/products/a)",
       "[Zinc B](https://zincsforboats.com/products/b)"]
      rfl rfl pyCeilDiv_len3_two (by rfl))

set_option exponentiation.threshold 1300 in
set_option maxRecDepth 4000 in
/-- Counterexample refuting the unbounded reading of C5: at
`per_page = 10^326` with three products, line 86's float quotient
`3 / 10^326` underflows to `0.0`, `math.ceil` gives `0`, and
`generate_response` reports `total_pages = 0` — although the exact
ceiling of `3 / 10^326` is `1`. -/
theorem C5_counterexample :
    generate_response "anode" out3 1 (10 ^ 326) =
      .ok ("We found the following matches for your query (Page 1 of 0):\n\n" ++
           "[Zinc A](https://zincsforboats.com/products/a)\n" ++
           "[Zinc B](https://zincsforboats.com/products/b)\n" ++
           "[Zinc C](https://zincsforboats.com/products/c)" ++
           "\n\nUse 'next' or 'prev' to navigate pages.", 0) ∧
    ⌈(ps3.length : ℚ) / ((10 ^ 326 : ℤ) : ℚ)⌉ = 1 := by
  constructor
  · exact generate_response_eval "anode" out3 ps3 1 (10 ^ 326) 0
      ["[Zinc A](https://zincsforboats.com/products/a)",
       "[Zinc B](https://zincsforboats.com/products/b)",
       "[Zinc C](https://zincsforboats.com/products/c)"]
      rfl rfl pyCeilDiv_len3_big (by rfl)
  · rw [show ps3.length = 3 from rfl,
      show (((10 ^ 326 : ℤ)) : ℚ) = (10 : ℚ) ^ 326 by push_cast; norm_num]
    rw [Int.ceil_eq_iff]
    refine ⟨by norm_num, by norm_num⟩

/-- Claim C6: for a non-empty fetched product list and `page ≥ 1`,
`per_page ≥ 1` (with well-formed product objects), the rendered page holds
exactly `min(per_page, total_products - (page-1)*per_page)` clamped to 0
links, computed through the Python slice `products[start:start+per_page]`
with `start = (page-1)*per_page`; an out-of-range page yields zero links,
not an error. -/
theorem C6_rendered_page_size (ps : List JVal) (page pp : Int)
    (hne : ps ≠ []) (hpage : 1 ≤ page) (hpp : 1 ≤ pp)
    (hgood : ∀ p ∈ ps, (renderLink p).isOk = true) :
    ∃ parts, responseParts ps page pp = .ok parts ∧
      (parts.length : Int) = max 0 (min pp ((ps.length : Int) - (page - 1) * pp)) := by
  obtain ⟨parts, hmap, hlen⟩ :=
    @mapM_ok_of_forall JVal String renderLink
      (pySlice ps ((page - 1) * pp) ((page - 1) * pp + pp))
      (fun a ha => hgood a (pySlice_subset ps _ _ a ha))
  refine ⟨parts, hmap, ?_⟩
  rw [hlen]
  have ht : 0 ≤ (page - 1) * pp := mul_nonneg (by omega) (by omega)
  generalize hgen : (page - 1) * pp = t at *
  unfold pySlice pySliceIdx
  rw [List.length_drop, List.length_take,
    if_neg (not_lt.mpr ht), if_neg (by omega : ¬(t + pp < 0))]
  omega

/-- Witness for C6 at a concrete input: three products, first page of two. -/
theorem C6_rendered_page_size_witness :
    ∃ parts, responseParts ps3 1 2 = .ok parts ∧
      (parts.length : Int) = max 0 (min 2 ((ps3.length : Int) - (1 - 1) * 2)) :=
  C6_rendered_page_size ps3 1 2 (by unfold ps3; exact List.cons_ne_nil _ _)
    (by norm_num) (by norm_num) (by decide)

/-- Claim C8: `get_openai_response` returns the trimmed completion text on
success and the fixed error sentence on any failure (including an empty
`choices` list), never raising; and with the catalog pipeline fixed, the
`/get_response` answer is the composed catalog message with the advice
suffix for EVERY advice outcome — an advice failure never blocks the
primary response. -/
theorem C8_advice_never_blocks (t : String) (rest : List String) (req : Request)
    (out : CatalogOutcome) (q msg : String) (page pp tp : Int)
    (hq : req.query = some q) (hqne : q ≠ "")
    (hp : parseArg 1 req.page = .ok page) (hpp : parseArg 10 req.per_page = .ok pp)
    (hgen : generate_response q out page pp = .ok (msg, tp)) :
    get_openai_response (.completion (t :: rest)) = pyStrip t ∧
    get_openai_response .apiError = aiErrorSentence ∧
    ∀ ai : AIOutcome, get_response req out ai =
      ⟨200, .messageBody (msg ++ "\n\nAdditionally, here's some advice: " ++
        get_openai_response ai) tp page⟩ := by
  refine ⟨rfl, rfl, ?_⟩
  intro ai
  simp only [get_response, hp, hpp, bindOk, hq, if_neg hqne, hgen]

/-- Witness for C8 at a concrete input: the full three-product response
with a failed advice call. -/
theorem C8_advice_never_blocks_witness :
    get_openai_response (.completion ("  advice  " :: [])) = pyStrip "  advice  " ∧
    get_openai_response .apiError = aiErrorSentence ∧
    ∀ ai : AIOutcome, get_response ⟨some "anode", none, none⟩ out3 ai =
      ⟨200, .messageBody
        (("We found the following matches for your query (Page 1 of 1):\n\n" ++
          "[Zinc A](https://zincsforboats.com/products/a)\n" ++
          "[Zinc B](https://zincsforboats.com/products/b)\n" ++
          "[Zinc C](https://zincsforboats.com/products/c)" ++
          "\n\nUse 'next' or 'prev' to navigate pages.") ++
         "\n\nAdditionally, here's some advice: " ++ get_openai_response ai) 1 1⟩ :=
  C8_advice_never_blocks "  advice  " [] ⟨some "anode", none, none⟩ out3 "anode"
    ("We found the following matches for your query (Page 1 of 1):\n\n" ++
     "[Zinc A](https://zincsforboats.com/products/a)\n" ++
     "[Zinc B](https://zincsforboats.com/products/b)\n" ++
     "[Zinc C](https://zincsforboats.com/products/c)" ++
     "\n\nUse 'next' or 'prev' to navigate pages.")
    1 10 1 rfl (by decide) rfl rfl
    (generate_response_eval "anode" out3 ps3 1 10 1
      ["[Zinc A](https://zincsforboats.com/products/a)",
       "[Zinc B](https://zincsforboats.com/products/b)",
       "[Zinc C](https://zincsforboats.com/products/c)"]
      rfl rfl pyCeilDiv_len3_ten (by rfl))

/-- Claim C9: `page` values below 1 are accepted and flow into Python slice
arithmetic with negative indices. At `page = -1`, `per_page = 1` over the
three-product list, `start = -2` and `end = -1` resolve from the end of the
list, so the rendered page holds exactly the second product's link — a
non-empty page, not an empty slice. The endpoint passes the value straight
through (`current_page = -1`). -/
theorem C9_negative_page_renders_from_end :
    responseParts ps3 (-1) 1 = .ok ["[Zinc B](" ++ WEBSITE_URL ++ "/products/b)"] ∧
    get_response ⟨some "anode", some "-1", some "1"⟩ out3 .apiError =
      ⟨200, .messageBody
        ("We found the following matches for your query (Page -1 of 3):\n\n" ++
         "[Zinc B](" ++ WEBSITE_URL ++ "/products/b)" ++
         "\n\nUse 'next' or 'prev' to navigate pages." ++
         "\n\nAdditionally, here's some advice: " ++ aiErrorSentence)
        3 (-1)⟩ := by
  have hgen := generate_response_eval "anode" out3 ps3 (-1) 1 3
    ["[Zinc B](https://zincsforboats.com/products/b)"] rfl rfl pyCeilDiv_len3_one
    (by rfl)
  refine ⟨rfl, ?_⟩
  simp only [get_response, show parseArg 1 (some "-1") = Except.ok (-1 : ℤ) from rfl,
    show parseArg 10 (some "1") = Except.ok (1 : ℤ) from rfl, bindOk, hgen]
  rfl

/-- Claim C10: with `per_page ≥ 1` the `total_pages` computation of
`generate_response` never raises `ZeroDivisionError`; with `per_page = 0`
and a non-empty catalog result, `math.ceil(total_products / per_page)`
divides by zero and the facade surfaces the generic 500. -/
theorem C10_per_page_zero_division (q : String) (out : CatalogOutcome) (ai : AIOutcome)
    (ps : List JVal) (page pp : Int) (hq : q ≠ "")
    (hfetch : fetch_product_details out = .ok ps) (hne : ps ≠ []) (hpp : 1 ≤ pp) :
    generate_response q out page pp ≠ .error .zeroDivisionError ∧
    generate_response q out page 0 = .error .zeroDivisionError ∧
    get_response ⟨some q, none, some "0"⟩ out ai = internalError := by
  have hppz : pp ≠ 0 := by omega
  have hemp : ps.isEmpty = false := by
    cases ps with
    | nil => exact absurd rfl hne
    | cons a l => rfl
  have hdiv0 : pyCeilDiv (ps.length : Int) 0 = .error .zeroDivisionError := rfl
  have hzero : generate_response q out page 0 = .error .zeroDivisionError := by
    simp only [generate_response, hfetch, bindOk, hemp, Bool.false_eq_true, if_false,
      hdiv0, bindErr]
  refine ⟨?_, hzero, ?_⟩
  · simp only [generate_response, hfetch, bindOk, hemp, Bool.false_eq_true, if_false]
    cases hd : pyCeilDiv (ps.length : Int) pp with
    | error e =>
      have he : e = .overflowError := pyCeilDiv_error hppz hd
      simp [hd, bindErr, he]
    | ok tp =>
      simp only [hd, bindOk]
      cases h : responseParts ps page pp with
      | ok parts => simp [h, bindOk]
      | error e =>
        rcases responseParts_error h with h1 | h1 <;>
          simp [h, bindErr, h1]
  · have hzero1 : generate_response q out 1 0 = .error .zeroDivisionError := by
      simp only [generate_response, hfetch, bindOk, hemp, Bool.false_eq_true, if_false,
        hdiv0, bindErr]
    simp only [get_response, parseArg, show pyInt "0" = .ok 0 from rfl, bindOk,
      if_neg hq, hzero1, bindErr, internalError]

/-- Witness for C10 at a concrete input: the three-product catalog with
`per_page = 10` (fine) and `per_page = 0` (division by zero, 500). -/
theorem C10_per_page_zero_division_witness :
    generate_response "anode" out3 1 10 ≠ .error .zeroDivisionError ∧
    generate_response "anode" out3 1 0 = .error .zeroDivisionError ∧
    get_response ⟨some "anode", none, some "0"⟩ out3 .apiError = internalError :=
  C10_per_page_zero_division "anode" out3 .apiError ps3 1 10 (by decide) rfl
    (by unfold ps3; exact List.cons_ne_nil _ _) (by norm_num)

end ZincsForBoats
